import Mathlib

/-!
Verification development for the Lon self-updater (`updater.py`).

The script downloads a candidate executable and a digest reference,
verifies the candidate, optionally detects that the installed binary is
already up to date, asks the user for confirmation, stops the running
process, takes a timestamped backup, and atomically replaces the
installed binary, rolling back from the backup when the replace fails.

The embedding below models file contents as byte lists and the file
system as a flat map from path strings to optional contents.  External
effects (network fetch, process control, the user prompt, the wall
clock, and injected I/O failures) are supplied through an `Env` record,
so the orchestrator `run` is a pure function of its environment, and
each helper (`atomic_replace`, `backup_file`, `parse_checksum`, ...)
is a direct translation of the corresponding Python function.
-/

namespace LonUpdater

/-- File contents: a byte string, modelled as a list of byte values. -/
abbrev Bytes := List Nat

/-- Flat file-system model: each path maps to the bytes of the file
stored there, or `none` when no file exists at that path. -/
def FS : Type := String → Option Bytes

namespace FS

/-- Write (create or overwrite) the file at path `p` with contents `b`. -/
def write (fs : FS) (p : String) (b : Bytes) : FS :=
  fun q => if q = p then some b else fs q

/-- Remove the file at path `p` (no effect when absent). -/
def remove (fs : FS) (p : String) : FS :=
  fun q => if q = p then none else fs q

theorem write_self (fs : FS) (p : String) (b : Bytes) :
    write fs p b p = some b := by
  simp [write]

theorem write_ne (fs : FS) (p : String) (b : Bytes) (q : String) (h : q ≠ p) :
    write fs p b q = fs q := by
  simp [write, h]

theorem remove_self (fs : FS) (p : String) : remove fs p p = none := by
  simp [remove]

theorem remove_ne (fs : FS) (p : String) (q : String) (h : q ≠ p) :
    remove fs p q = fs q := by
  simp [remove, h]

end FS

/-- `os.remove(path)`: deletes the file, raising `FileNotFoundError`
when no file exists at the path.  Used bare (unguarded) by `main` on
the up-to-date, user-declined, process-not-stopped, backup-failed and
replace-failed exits. -/
def os_remove (fs : FS) (p : String) : Except String FS :=
  match fs p with
  | some _ => .ok (FS.remove fs p)
  | none => .error "FileNotFoundError"

/-- `try: os.remove(path) except Exception: pass`: the guarded removal
idiom used by `main` on the checksum-mismatch and success exits; it
never raises. -/
def os_remove_guarded (fs : FS) (p : String) : FS :=
  FS.remove fs p

/-- ASCII lowercasing of one character, as Python `str.lower()` acts
on the hex-digest strings the updater compares. -/
def lowerChar (c : Char) : Char :=
  if 'A' ≤ c ∧ c ≤ 'Z' then Char.ofNat (c.toNat + 32) else c

/-- Python `str.lower()` on the ASCII digest strings of the updater:
the case-insensitive digest comparisons of `main` (lines 277 and 290)
lowercase both sides with it. -/
def lowerStr (s : String) : String :=
  String.mk (s.toList.map lowerChar)

/-- The whitespace characters that the Python `str.split()` (and
`str.strip()`) used by `read_remote_checksum` treat as separators. -/
def isSpace (c : Char) : Bool :=
  c = ' ' || c = '\t' || c = '\n' || c = '\r' || c = '\x0c' || c = '\x0b'

/-- Longest prefix of non-whitespace characters (the current token). -/
def takeToken : List Char → List Char
  | [] => []
  | c :: rest => if isSpace c then [] else c :: takeToken rest

/-- First whitespace-separated token of a character list, or `none`
when the list holds only whitespace. -/
def firstToken : List Char → Option (List Char)
  | [] => none
  | c :: rest => if isSpace c then firstToken rest else some (takeToken (c :: rest))

/-- Translation of the parsing part of `read_remote_checksum`
(lines 120-126): `content = f.read().strip().split()`, empty content
yields failure (`None`), otherwise the first token is returned. -/
def parse_checksum (s : String) : Option String :=
  (firstToken s.toList).map fun l => String.mk l

/-- `read_remote_checksum`: downloads the checksum file (modelled by the
`fetched` argument, `none` on download failure) and parses it. -/
def read_remote_checksum (fetched : Option String) : Option String :=
  fetched.bind parse_checksum

/-- `os.path.basename`: the suffix of the path after the last slash or
backslash separator. -/
def basename (s : String) : String :=
  String.mk ((s.toList.reverse.takeWhile fun c => ¬(c = '/' ∨ c = '\\')).reverse)

/-- `os.path.splitext` on a basename: split at the last dot, except
that a name whose characters before that dot are all dots (for example
`.bashrc`) has no extension. -/
def splitext (s : String) : String × String :=
  let l := s.toList
  let after := l.reverse.takeWhile fun c => c ≠ '.'
  if after.length = l.length then (s, "")
  else
    let i := l.length - after.length - 1
    if (l.take i).all fun c => c = '.' then (s, "")
    else (String.mk (l.take i), String.mk (l.drop i))

/-- The backup file name built by `backup_file` (lines 195-197):
`f"{base_name}_{timestamp}.exe"` where
`base_name = os.path.splitext(os.path.basename(src_path))[0]`.
Note the extension is the literal `.exe`. -/
def backup_name (srcPath ts : String) : String :=
  (splitext (basename srcPath)).1 ++ "_" ++ ts ++ ".exe"

/-- Modelled from the spec: the backup file name the specification
describes, `<basename>_<YYYYMMDD_HHMMSS>.<ext>` where `<ext>` is the
extension of the installed file. -/
def spec_backup_name (srcPath ts : String) : String :=
  (splitext (basename srcPath)).1 ++ "_" ++ ts ++ (splitext (basename srcPath)).2

/-- Full path of the backup file: `os.path.join(backup_dir, backup_name)`. -/
def backup_path (srcPath backupDir ts : String) : String :=
  backupDir ++ "/" ++ backup_name srcPath ts

/-- Injected failure points for `backup_file`: `os.makedirs` may fail,
or `shutil.copy2` may fail after writing `leftover` bytes (or nothing)
to the destination. -/
inductive BackupFailure : Type
  | mkdirsFail : BackupFailure
  | copyFail (leftover : Option Bytes) : BackupFailure
deriving DecidableEq

/-- Translation of `backup_file` (lines 188-204): ensure the backup
directory exists, build the timestamped name, `shutil.copy2` the source
over it, and return the backup path; on any exception log and return
`None`.  The exception handler performs no cleanup, so bytes already
written to the destination stay there. -/
def backup_file (srcPath backupDir ts : String) (fail : Option BackupFailure)
    (fs : FS) : Option String × FS :=
  let bpath := backup_path srcPath backupDir ts
  match fail with
  | some .mkdirsFail => (none, fs)
  | some (.copyFail leftover) =>
      (none, match leftover with
             | none => fs
             | some b => FS.write fs bpath b)
  | none =>
      match fs srcPath with
      | none => (none, fs)
      | some b => (some bpath, FS.write fs bpath b)

/-- Injected failure points for `atomic_replace`: `os.makedirs` may
fail, `shutil.copy2` may fail after writing `leftover` bytes (or
nothing) to the temporary file, or `os.replace` may fail. -/
inductive ReplaceFailure : Type
  | mkdirsFail : ReplaceFailure
  | copyFail (leftover : Option Bytes) : ReplaceFailure
  | replaceFail : ReplaceFailure
deriving DecidableEq

/-- Translation of `atomic_replace` (lines 207-231): copy `src` to the
sibling temporary file `dest + ".new"`, then atomically move it over
`dest` with `os.replace`.  On any exception the handler removes the
temporary file when it exists and returns `False`; when `os.makedirs`
itself failed, `tmp_dest` was never assigned, so the handler touches
nothing.  A missing source makes the copy fail even without an injected
failure. -/
def atomic_replace (src dest : String) (fail : Option ReplaceFailure)
    (fs : FS) : Bool × FS :=
  let tmp := dest ++ ".new"
  match fail with
  | some .mkdirsFail => (false, fs)
  | some (.copyFail leftover) =>
      let fs1 := match leftover with
                 | none => fs
                 | some b => FS.write fs tmp b
      (false, FS.remove fs1 tmp)
  | some .replaceFail =>
      match fs src with
      | none => (false, FS.remove fs tmp)
      | some b => (false, FS.remove (FS.write fs tmp b) tmp)
  | none =>
      match fs src with
      | none => (false, FS.remove fs tmp)
      | some b => (true, FS.write (FS.remove (FS.write fs tmp b) tmp) dest b)

/-- Terminal outcomes of `main`, one per exit site (lines 238, 256,
266, 273, 283, 293, 301, 307, 316, 328 and the fall-through return). -/
inductive Outcome : Type
  | configMissing
  | configIncomplete
  | referenceUnavailable
  | downloadFailed
  | checksumMismatch
  | alreadyUpToDate
  | userDeclined
  | processNotStopped
  | backupFailed
  | rolledBack
  | rollbackFailed
  | replaceFailedNoBackup
  | success
deriving DecidableEq

/-- Process exit code at each terminal outcome, read off the
`sys.exit` call (or fall-through return) at the corresponding site. -/
def exit_code : Outcome → Nat
  | .configMissing => 1
  | .configIncomplete => 1
  | .referenceUnavailable => 1
  | .downloadFailed => 1
  | .checksumMismatch => 1
  | .alreadyUpToDate => 0
  | .userDeclined => 0
  | .processNotStopped => 1
  | .backupFailed => 1
  | .rolledBack => 1
  | .rollbackFailed => 1
  | .replaceFailedNoBackup => 1
  | .success => 0

/-- The configured paths (from `updater.config.json`), the temporary
path `tempfile.mkstemp` picked for the downloaded candidate, and the
timestamp string `datetime.now().strftime` produced for the backup
name: the data `main` threads through one run. -/
structure Params : Type where
  installPath : String
  backupDir : String
  downloadPath : String
  ts : String
deriving DecidableEq

/-- Path of the backup file a run with parameters `p` would create. -/
def Params.bpath (p : Params) : String :=
  backup_path p.installPath p.backupDir p.ts

/-- The download temporary path is fresh (created by `mkstemp`) and
distinct from every path the run later touches, and the backup file
does not collide with the install path or its `.new` sibling. -/
def Params.wf (p : Params) : Prop :=
  p.downloadPath ≠ p.installPath ∧
  p.downloadPath ≠ p.installPath ++ ".new" ∧
  p.downloadPath ≠ p.bpath ∧
  p.bpath ≠ p.installPath ∧
  p.bpath ≠ p.installPath ++ ".new"

instance (p : Params) : Decidable p.wf := by
  unfold Params.wf; infer_instance

/-- Results of the external collaborators and the injected I/O
failures for one run of `main`: whether the configuration file exists
and has the required fields, the parsed digest reference (`none` on
fetch or parse failure), the downloaded candidate bytes (`none` on
download failure), whether hashing the installed binary raises at the
up-to-date check, the answers of the confirmation prompt and the
process guard, and the failure injections for backup, replace and
rollback. -/
structure Env : Type where
  configExists : Bool
  fieldsOk : Bool
  refDigest : Option String
  downloadResult : Option Bytes
  installHashFails : Bool
  userConfirms : Bool
  terminateOk : Bool
  backupFail : Option BackupFailure
  replaceFail : Option ReplaceFailure
  rollbackFails : Bool

/-- A run in which the candidate artifact actually gets downloaded:
configuration present and complete, reference fetched, download
succeeded. -/
def Env.downloaded (e : Env) : Prop :=
  e.configExists = true ∧ e.fieldsOk = true ∧
  e.refDigest ≠ none ∧ e.downloadResult ≠ none

/-- Lines 318-337 of `main`: `atomic_replace` the candidate over the
install path; on failure attempt the rollback `shutil.copy2` when a
backup exists, reporting success and failure distinctly; then remove
the downloaded file (bare `os.remove` on the failure exit, guarded on
the success exit). -/
def replacePhase (p : Params) (env : Env) (backupCreated : Option String)
    (fs : FS) (n : Nat) : Except String (Outcome × FS × Nat) :=
  let r := atomic_replace p.downloadPath p.installPath env.replaceFail fs
  if r.1 then
    .ok (.success, os_remove_guarded r.2 p.downloadPath, n + 1)
  else
    match backupCreated with
    | some bp =>
        match (if env.rollbackFails then none else r.2 bp) with
        | some bb =>
            match os_remove (FS.write r.2 p.installPath bb) p.downloadPath with
            | .ok fs3 => .ok (.rolledBack, fs3, n + 1)
            | .error e => .error e
        | none =>
            match os_remove r.2 p.downloadPath with
            | .ok fs3 => .ok (.rollbackFailed, fs3, n + 1)
            | .error e => .error e
    | none =>
        match os_remove r.2 p.downloadPath with
        | .ok fs3 => .ok (.replaceFailedNoBackup, fs3, n + 1)
        | .error e => .error e

/-- Lines 309-316 of `main`: when an installed binary exists, take the
timestamped backup, aborting (bare `os.remove`, exit 1) when it fails;
then go on to the replace phase. -/
def backupPhase (p : Params) (env : Env) (fs : FS) (n : Nat) :
    Except String (Outcome × FS × Nat) :=
  match fs p.installPath with
  | some _ =>
      let r := backup_file p.installPath p.backupDir p.ts env.backupFail fs
      match r.1 with
      | some bp => replacePhase p env (some bp) r.2 n
      | none =>
          match os_remove r.2 p.downloadPath with
          | .ok fs2 => .ok (.backupFailed, fs2, n + 1)
          | .error e => .error e
  | none => replacePhase p env none fs n

/-- Lines 297-307 of `main`: user confirmation (declining removes the
candidate with a bare `os.remove` and exits 0), then the process guard
(still-running removes the candidate with a bare `os.remove` and exits
1), then the backup phase. -/
def confirmPhase (p : Params) (env : Env) (fs : FS) (n : Nat) :
    Except String (Outcome × FS × Nat) :=
  if env.userConfirms then
    if env.terminateOk then
      backupPhase p env fs n
    else
      match os_remove fs p.downloadPath with
      | .ok fs2 => .ok (.processNotStopped, fs2, n + 1)
      | .error e => .error e
  else
    match os_remove fs p.downloadPath with
    | .ok fs2 => .ok (.userDeclined, fs2, n + 1)
    | .error e => .error e

/-- Lines 286-295 of `main`: when an installed binary exists, hash it;
an exception there is logged and swallowed, falling through to the
confirmation phase; equal digests (case-insensitive) remove the
candidate with a bare `os.remove` and exit 0 as already up to date. -/
def upToDatePhase (H : Bytes → String) (p : Params) (env : Env)
    (newDigest : String) (fs : FS) (n : Nat) :
    Except String (Outcome × FS × Nat) :=
  match fs p.installPath with
  | some cur =>
      if env.installHashFails then
        confirmPhase p env fs n
      else if lowerStr (H cur) = lowerStr newDigest then
        match os_remove fs p.downloadPath with
        | .ok fs2 => .ok (.alreadyUpToDate, fs2, n + 1)
        | .error e => .error e
      else
        confirmPhase p env fs n
  | none => confirmPhase p env fs n

/-- Translation of `main` (lines 234-337), parametric in the hash
function `H` (`sha256_of_file` on the bytes of a file).  Returns the
terminal outcome, the final file system, and the number of
`os.remove(download_path)` attempts; an unhandled exception from a
bare `os.remove` surfaces as `.error`. -/
def run (H : Bytes → String) (p : Params) (env : Env) (fs0 : FS) :
    Except String (Outcome × FS × Nat) :=
  if env.configExists then
    if env.fieldsOk then
      match env.refDigest with
      | some expected =>
          match env.downloadResult with
          | some bytes =>
              let fs1 := FS.write fs0 p.downloadPath bytes
              if lowerStr (H bytes) = lowerStr expected then
                upToDatePhase H p env (H bytes) fs1 0
              else
                .ok (.checksumMismatch, os_remove_guarded fs1 p.downloadPath, 1)
          | none => .ok (.downloadFailed, fs0, 0)
      | none => .ok (.referenceUnavailable, fs0, 0)
    else .ok (.configIncomplete, fs0, 0)
  else .ok (.configMissing, fs0, 0)

/-! ### Helper lemmas -/

theorem ne_append_new (s : String) : s ≠ s ++ ".new" := by
  intro h
  have h' := congrArg String.length h
  simp [String.length_append] at h'
  exact absurd h' (by decide)

theorem atomic_replace_snd_frame (src dest : String)
    (fail : Option ReplaceFailure) (fs : FS) (q : String)
    (h1 : q ≠ dest) (h2 : q ≠ dest ++ ".new") :
    (atomic_replace src dest fail fs).2 q = fs q := by
  rcases fail with _ | f
  · cases hs : fs src <;> simp [atomic_replace, hs, FS.write, FS.remove, h1, h2]
  · cases f with
    | mkdirsFail => simp [atomic_replace]
    | copyFail leftover =>
        cases leftover <;> simp [atomic_replace, FS.write, FS.remove, h2]
    | replaceFail =>
        cases hs : fs src <;>
          simp [atomic_replace, hs, FS.write, FS.remove, h2]

theorem atomic_replace_injected_fails (src dest : String) (f : ReplaceFailure)
    (fs : FS) : (atomic_replace src dest (some f) fs).1 = false := by
  cases f with
  | mkdirsFail => simp [atomic_replace]
  | copyFail leftover => simp [atomic_replace]
  | replaceFail => cases hs : fs src <;> simp [atomic_replace, hs]

theorem backup_file_snd_frame (srcPath backupDir ts : String)
    (fail : Option BackupFailure) (fs : FS) (q : String)
    (h : q ≠ backup_path srcPath backupDir ts) :
    (backup_file srcPath backupDir ts fail fs).2 q = fs q := by
  rcases fail with _ | f
  · cases hs : fs srcPath <;> simp [backup_file, hs, FS.write, h]
  · cases f with
    | mkdirsFail => simp [backup_file]
    | copyFail leftover =>
        cases leftover <;> simp [backup_file, FS.write, h]

theorem os_remove_ok (fs : FS) (q : String) (b : Bytes)
    (h : fs q = some b) : os_remove fs q = .ok (FS.remove fs q) := by
  simp [os_remove, h]

theorem firstToken_of_all_space (l : List Char)
    (h : ∀ c ∈ l, isSpace c = true) : firstToken l = none := by
  induction l with
  | nil => rfl
  | cons c rest ih =>
      have hc := h c (List.mem_cons_self c rest)
      simp [firstToken, hc]
      exact ih fun d hd => h d (List.mem_cons_of_mem c hd)

/-! ### C1 -/

/-- C1: whenever `atomic_replace` fails — at directory creation, during
the copy into the sibling temporary file (possibly after a partial
write), or at the final move — the destination path still holds exactly
its previous bytes, and no temporary file remains beside it (given the
temporary name was fresh, as `main` guarantees); the candidate is never
written directly into the destination. -/
theorem atomic_replace_failure_leaves_dest (src dest : String)
    (fail : Option ReplaceFailure) (fs : FS)
    (htmp : fs (dest ++ ".new") = none)
    (hfail : (atomic_replace src dest fail fs).1 = false) :
    (atomic_replace src dest fail fs).2 dest = fs dest ∧
    (atomic_replace src dest fail fs).2 (dest ++ ".new") = none := by
  have hne : dest ≠ dest ++ ".new" := ne_append_new dest
  rcases fail with _ | f
  · cases hs : fs src with
    | none => simp [atomic_replace, hs, FS.remove, hne, htmp]
    | some b => simp [atomic_replace, hs] at hfail
  · cases f with
    | mkdirsFail => simp [atomic_replace, htmp]
    | copyFail leftover =>
        cases leftover <;>
          simp [atomic_replace, FS.write, FS.remove, hne, htmp]
    | replaceFail =>
        cases hs : fs src <;>
          simp [atomic_replace, hs, FS.write, FS.remove, hne, htmp]

theorem atomic_replace_failure_leaves_dest_witness :
    ((fun q => if q = "C:/app/lon.exe" then some [9] else none : FS)
        ("C:/app/lon.exe" ++ ".new") = none) ∧
    (atomic_replace "C:/tmp/dl" "C:/app/lon.exe"
        (some (.copyFail (some [1, 2])))
        (fun q => if q = "C:/app/lon.exe" then some [9] else none)).1
      = false ∧
    (atomic_replace "C:/tmp/dl" "C:/app/lon.exe"
        (some (.copyFail (some [1, 2])))
        (fun q => if q = "C:/app/lon.exe" then some [9] else none)).2
        "C:/app/lon.exe"
      = (fun q => if q = "C:/app/lon.exe" then some [9] else none : FS)
          "C:/app/lon.exe" ∧
    (atomic_replace "C:/tmp/dl" "C:/app/lon.exe"
        (some (.copyFail (some [1, 2])))
        (fun q => if q = "C:/app/lon.exe" then some [9] else none)).2
        ("C:/app/lon.exe" ++ ".new")
      = none :=
  ⟨by decide, by decide,
   (atomic_replace_failure_leaves_dest "C:/tmp/dl" "C:/app/lon.exe"
      (some (.copyFail (some [1, 2]))) _ (by decide) (by decide)).1,
   (atomic_replace_failure_leaves_dest "C:/tmp/dl" "C:/app/lon.exe"
      (some (.copyFail (some [1, 2]))) _ (by decide) (by decide)).2⟩

/-! ### C5 -/

/-- C5 counterexample: a copy failure that leaves bytes `[7]` behind at
the backup destination returns the failure result, yet the partially
written backup file is still present afterwards — the claim that any
partially written destination file is removed before returning is
false. -/
theorem backup_file_leaves_partial_file :
    (backup_file "C:/app/lon.exe" "C:/bak" "20240101_000000"
        (some (.copyFail (some [7])))
        (fun q => if q = "C:/app/lon.exe" then some [1, 2] else none)).1
      = none ∧
    (backup_file "C:/app/lon.exe" "C:/bak" "20240101_000000"
        (some (.copyFail (some [7])))
        (fun q => if q = "C:/app/lon.exe" then some [1, 2] else none)).2
        (backup_path "C:/app/lon.exe" "C:/bak" "20240101_000000")
      = some [7] := by
  constructor <;> rfl

/-- C5 (amended): when `backup_file` fails (directory creation or copy
failure) it reports the failure by returning no backup reference, and
it touches no path other than the backup destination; but it performs
no cleanup, so a partially written backup file, when the copy failure
left one, stays in place. -/
theorem backup_file_failure_reports (srcPath backupDir ts : String)
    (f : BackupFailure) (fs : FS) :
    (backup_file srcPath backupDir ts (some f) fs).1 = none ∧
    ∀ q, q ≠ backup_path srcPath backupDir ts →
      (backup_file srcPath backupDir ts (some f) fs).2 q = fs q := by
  constructor
  · cases f with
    | mkdirsFail => rfl
    | copyFail leftover => cases leftover <;> rfl
  · intro q hq
    exact backup_file_snd_frame srcPath backupDir ts (some f) fs q hq

theorem backup_file_failure_reports_witness :
    (backup_file "C:/app/lon.exe" "C:/bak" "TS" (some .mkdirsFail)
        (fun _ => none)).1 = none ∧
    (backup_file "C:/app/lon.exe" "C:/bak" "TS" (some .mkdirsFail)
        (fun _ => none)).2 "C:/app/lon.exe" = (fun _ => none : FS) "C:/app/lon.exe" :=
  ⟨(backup_file_failure_reports "C:/app/lon.exe" "C:/bak" "TS"
      .mkdirsFail (fun _ => none)).1,
   (backup_file_failure_reports "C:/app/lon.exe" "C:/bak" "TS"
      .mkdirsFail (fun _ => none)).2 "C:/app/lon.exe" (by decide)⟩

/-! ### C6 -/

/-- C6 counterexample: for an installed file `lon.bin` the backup name
the code builds ends in the literal `.exe`, not in the extension
`.bin` of the installed file that the claim prescribes. -/
theorem backup_name_fixed_ext :
    backup_name "C:/app/lon.bin" "20240101_000000"
      = "lon_20240101_000000.exe" ∧
    backup_name "C:/app/lon.bin" "20240101_000000"
      ≠ spec_backup_name "C:/app/lon.bin" "20240101_000000" := by
  constructor
  · rfl
  · decide

/-- C6 (amended): for an installed file that exists, `backup_file`
writes exactly one file — a byte-for-byte copy of the installed file,
via `shutil.copy2`, which preserves metadata — at
`backupDir/<basename>_<timestamp>.exe`, the extension being the fixed
literal `.exe` rather than the extension of the installed file, and
returns that path; every other path is untouched (directory creation
is modelled as an external effect). -/
theorem backup_file_creates_single (srcPath backupDir ts : String)
    (fs : FS) (b : Bytes) (h : fs srcPath = some b) :
    (backup_file srcPath backupDir ts none fs).1
      = some (backupDir ++ "/" ++
          ((splitext (basename srcPath)).1 ++ "_" ++ ts ++ ".exe")) ∧
    (backup_file srcPath backupDir ts none fs).2
        (backup_path srcPath backupDir ts) = some b ∧
    ∀ q, q ≠ backup_path srcPath backupDir ts →
      (backup_file srcPath backupDir ts none fs).2 q = fs q := by
  refine ⟨?_, ?_, ?_⟩
  · simp [backup_file, h, backup_path, backup_name]
  · simp [backup_file, h, FS.write]
  · intro q hq
    exact backup_file_snd_frame srcPath backupDir ts none fs q hq

theorem backup_file_creates_single_witness :
    ((fun q => if q = "C:/app/lon.exe" then some [5] else none : FS)
        "C:/app/lon.exe" = some [5]) ∧
    (backup_file "C:/app/lon.exe" "C:/bak" "TS" none
        (fun q => if q = "C:/app/lon.exe" then some [5] else none)).1
      = some ("C:/bak" ++ "/" ++
          ((splitext (basename "C:/app/lon.exe")).1 ++ "_" ++ "TS" ++ ".exe")) ∧
    (backup_file "C:/app/lon.exe" "C:/bak" "TS" none
        (fun q => if q = "C:/app/lon.exe" then some [5] else none)).2
        (backup_path "C:/app/lon.exe" "C:/bak" "TS") = some [5] :=
  ⟨by decide,
   (backup_file_creates_single "C:/app/lon.exe" "C:/bak" "TS" _ [5]
      (by decide)).1,
   (backup_file_creates_single "C:/app/lon.exe" "C:/bak" "TS" _ [5]
      (by decide)).2.1⟩

/-! ### C8 -/

/-- C8: the checksum parser splits the reference content on whitespace
and newlines and returns exactly the first token — `BBB111  lon.exe`
followed by a newline yields `BBB111` — and content that is empty
after trimming (all whitespace) yields no digest, the malformed-
reference failure. -/
theorem parse_checksum_first_token :
    parse_checksum "BBB111  lon.exe\n" = some "BBB111" ∧
    ∀ s : String, (∀ c ∈ s.toList, isSpace c = true) →
      parse_checksum s = none := by
  constructor
  · rfl
  · intro s h
    unfold parse_checksum
    rw [firstToken_of_all_space s.toList h]
    rfl

theorem parse_checksum_first_token_witness :
    parse_checksum "BBB111  lon.exe\n" = some "BBB111" ∧
    parse_checksum "  \n " = none :=
  ⟨parse_checksum_first_token.1,
   parse_checksum_first_token.2 "  \n " (by decide)⟩

/-! ### C9 -/

/-- C9 counterexample: the abort reasons do not get distinct exit
codes — checksum mismatch and backup failure both exit with code 1 (as
do all other aborts), and the user-declined exit uses the success code
0 rather than its own non-success code. -/
theorem exit_codes_not_distinct :
    exit_code .checksumMismatch = exit_code .backupFailed ∧
    exit_code .userDeclined = 0 ∧ exit_code .success = 0 := by
  decide

/-- C9 (amended): the process exit code distinguishes only success
from failure: `Success`, `AlreadyUpToDate` and `UserDeclined` all exit
with code 0, and every other terminal outcome exits with the single
shared code 1; the abort reasons are told apart only by their log
lines, not by exit code. -/
theorem exit_code_success_or_one (o : Outcome) :
    exit_code o =
      if o = .success ∨ o = .alreadyUpToDate ∨ o = .userDeclined
      then 0 else 1 := by
  cases o <;> rfl

/-! ### C2 -/

/-- C2: a run whose downloaded candidate hashes to a digest that
differs case-insensitively from the fetched reference digest
terminates with the checksum-mismatch outcome (exit code 1), the
candidate temporary file is discarded, the install path still holds
exactly its previous bytes, and no other path — in particular no
backup file — is created or changed. -/
theorem run_checksum_mismatch_frame (H : Bytes → String) (p : Params)
    (env : Env) (fs0 : FS) (expected : String) (bytes : Bytes)
    (hc : env.configExists = true) (hf : env.fieldsOk = true)
    (hr : env.refDigest = some expected)
    (hd : env.downloadResult = some bytes)
    (hmm : lowerStr (H bytes) ≠ lowerStr expected) :
    ∃ fs1, run H p env fs0 = .ok (.checksumMismatch, fs1, 1) ∧
      fs1 p.downloadPath = none ∧
      ∀ q, q ≠ p.downloadPath → fs1 q = fs0 q := by
  refine ⟨os_remove_guarded (FS.write fs0 p.downloadPath bytes)
    p.downloadPath, ?_, ?_, ?_⟩
  · simp [run, hc, hf, hr, hd, hmm]
  · simp [os_remove_guarded, FS.remove]
  · intro q hq
    simp [os_remove_guarded, FS.remove, FS.write, hq]

theorem run_checksum_mismatch_frame_witness :
    ((⟨true, true, some "zz", some [1], false, true, true, none, none,
        false⟩ : Env).configExists = true) ∧
    (lowerStr ((fun l => if l = [1] then "AA" else "bb") [1])
      ≠ lowerStr "zz") ∧
    ∃ fs1, run (fun l => if l = [1] then "AA" else "bb")
        ⟨"C:/app/lon.exe", "C:/bak", "C:/tmp/dl", "TS"⟩
        ⟨true, true, some "zz", some [1], false, true, true, none, none, false⟩
        (fun q => if q = "C:/app/lon.exe" then some [0] else none)
      = .ok (.checksumMismatch, fs1, 1) ∧
      fs1 "C:/tmp/dl" = none ∧
      ∀ q, q ≠ "C:/tmp/dl" →
        fs1 q = (fun q => if q = "C:/app/lon.exe" then some [0] else none : FS) q :=
  ⟨rfl, by decide,
   run_checksum_mismatch_frame (fun l => if l = [1] then "AA" else "bb")
     ⟨"C:/app/lon.exe", "C:/bak", "C:/tmp/dl", "TS"⟩
     ⟨true, true, some "zz", some [1], false, true, true, none, none, false⟩
     (fun q => if q = "C:/app/lon.exe" then some [0] else none)
     "zz" [1] rfl rfl rfl rfl (by decide)⟩

/-! ### C7 -/

/-- C7: when an installed binary exists and its digest equals the
verified candidate digest case-insensitively, the run terminates as
already up to date with the success exit code 0, the candidate
temporary file is discarded, the installed bytes are unchanged, and no
other path — in particular no backup file — is created or changed. -/
theorem run_already_up_to_date (H : Bytes → String) (p : Params)
    (env : Env) (fs0 : FS) (expected : String) (bytes cur : Bytes)
    (hc : env.configExists = true) (hf : env.fieldsOk = true)
    (hr : env.refDigest = some expected)
    (hd : env.downloadResult = some bytes)
    (hm : lowerStr (H bytes) = lowerStr expected)
    (hinst : fs0 p.installPath = some cur)
    (hnh : env.installHashFails = false)
    (hcur : lowerStr (H cur) = lowerStr (H bytes))
    (hne : p.downloadPath ≠ p.installPath) :
    ∃ fs1, run H p env fs0 = .ok (.alreadyUpToDate, fs1, 1) ∧
      exit_code .alreadyUpToDate = 0 ∧
      fs1 p.installPath = some cur ∧
      fs1 p.downloadPath = none ∧
      ∀ q, q ≠ p.downloadPath → fs1 q = fs0 q := by
  have hinst' : FS.write fs0 p.downloadPath bytes p.installPath = some cur := by
    rw [FS.write_ne fs0 p.downloadPath bytes p.installPath (Ne.symm hne)]
    exact hinst
  have hcand : FS.write fs0 p.downloadPath bytes p.downloadPath = some bytes :=
    FS.write_self fs0 p.downloadPath bytes
  refine ⟨FS.remove (FS.write fs0 p.downloadPath bytes) p.downloadPath,
    ?_, rfl, ?_, ?_, ?_⟩
  · simp [run, hc, hf, hr, hd, hm, upToDatePhase, hinst', hnh, hcur,
      os_remove, hcand]
  · rw [FS.remove_ne _ _ _ (Ne.symm hne)]
    exact hinst'
  · exact FS.remove_self _ _
  · intro q hq
    rw [FS.remove_ne _ _ _ hq, FS.write_ne _ _ _ _ hq]

theorem run_already_up_to_date_witness :
    (lowerStr ((fun l => if l = [1] then "AA" else "bb") [1])
      = lowerStr "aa") ∧
    ∃ fs1, run (fun l => if l = [1] then "AA" else "bb")
        ⟨"C:/app/lon.exe", "C:/bak", "C:/tmp/dl", "TS"⟩
        ⟨true, true, some "aa", some [1], false, true, true, none, none, false⟩
        (fun q => if q = "C:/app/lon.exe" then some [1] else none)
      = .ok (.alreadyUpToDate, fs1, 1) ∧
      exit_code .alreadyUpToDate = 0 ∧
      fs1 "C:/app/lon.exe" = some [1] ∧
      fs1 "C:/tmp/dl" = none ∧
      ∀ q, q ≠ "C:/tmp/dl" →
        fs1 q = (fun q => if q = "C:/app/lon.exe" then some [1] else none : FS) q :=
  ⟨by decide,
   run_already_up_to_date (fun l => if l = [1] then "AA" else "bb")
     ⟨"C:/app/lon.exe", "C:/bak", "C:/tmp/dl", "TS"⟩
     ⟨true, true, some "aa", some [1], false, true, true, none, none, false⟩
     (fun q => if q = "C:/app/lon.exe" then some [1] else none)
     "aa" [1] [1] rfl rfl rfl rfl (by decide) rfl rfl (by decide) (by decide)⟩

/-! ### C10 -/

/-- C10: when an installed binary exists but hashing it for the
up-to-date comparison raises, the exception is logged and swallowed
and the run falls through to the confirmation phase — and from there
to backup and replace — exactly as when an update is needed, instead
of aborting. -/
theorem run_swallows_install_hash_error (H : Bytes → String) (p : Params)
    (env : Env) (fs0 : FS) (expected : String) (bytes cur : Bytes)
    (hc : env.configExists = true) (hf : env.fieldsOk = true)
    (hr : env.refDigest = some expected)
    (hd : env.downloadResult = some bytes)
    (hm : lowerStr (H bytes) = lowerStr expected)
    (hinst : fs0 p.installPath = some cur)
    (hhf : env.installHashFails = true)
    (hne : p.downloadPath ≠ p.installPath) :
    run H p env fs0 =
      confirmPhase p env (FS.write fs0 p.downloadPath bytes) 0 := by
  have hinst' : FS.write fs0 p.downloadPath bytes p.installPath = some cur := by
    rw [FS.write_ne fs0 p.downloadPath bytes p.installPath (Ne.symm hne)]
    exact hinst
  simp [run, hc, hf, hr, hd, hm, upToDatePhase, hinst', hhf]

theorem run_swallows_install_hash_error_witness :
    ((⟨true, true, some "aa", some [1], true, false, true, none, none,
        false⟩ : Env).installHashFails = true) ∧
    run (fun l => if l = [1] then "AA" else "bb")
        ⟨"C:/app/lon.exe", "C:/bak", "C:/tmp/dl", "TS"⟩
        ⟨true, true, some "aa", some [1], true, false, true, none, none, false⟩
        (fun q => if q = "C:/app/lon.exe" then some [1] else none)
      = confirmPhase ⟨"C:/app/lon.exe", "C:/bak", "C:/tmp/dl", "TS"⟩
          ⟨true, true, some "aa", some [1], true, false, true, none, none, false⟩
          (FS.write (fun q => if q = "C:/app/lon.exe" then some [1] else none)
            "C:/tmp/dl" [1]) 0 :=
  ⟨rfl,
   run_swallows_install_hash_error (fun l => if l = [1] then "AA" else "bb")
     ⟨"C:/app/lon.exe", "C:/bak", "C:/tmp/dl", "TS"⟩
     ⟨true, true, some "aa", some [1], true, false, true, none, none, false⟩
     (fun q => if q = "C:/app/lon.exe" then some [1] else none)
     "aa" [1] [1] rfl rfl rfl rfl (by decide) rfl rfl (by decide)⟩

/-! ### C4 -/

/-- C4: when the replace fails after a backup was taken, the
orchestrator rolls back by copying the backup over the install path,
after which the install path holds exactly the pre-update bytes (so
its digest equals the pre-update digest); rollback success and
rollback failure are reported as distinct outcomes. -/
theorem run_replace_failure_rolls_back (H : Bytes → String) (p : Params)
    (env : Env) (fs0 : FS) (expected : String) (bytes cur : Bytes)
    (rf : ReplaceFailure) (hwf : p.wf)
    (hc : env.configExists = true) (hf : env.fieldsOk = true)
    (hr : env.refDigest = some expected)
    (hd : env.downloadResult = some bytes)
    (hm : lowerStr (H bytes) = lowerStr expected)
    (hinst : fs0 p.installPath = some cur)
    (hnh : env.installHashFails = false)
    (hdiff : lowerStr (H cur) ≠ lowerStr (H bytes))
    (huc : env.userConfirms = true) (ht : env.terminateOk = true)
    (hbk : env.backupFail = none)
    (hrf : env.replaceFail = some rf) :
    Outcome.rolledBack ≠ Outcome.rollbackFailed ∧
    ∃ fs1, run H p env fs0 =
        .ok ((if env.rollbackFails then .rollbackFailed else .rolledBack),
          fs1, 1) ∧
      (env.rollbackFails = false → fs1 p.installPath = some cur) := by
  obtain ⟨w1, w2, w3, w4, w5⟩ := hwf
  refine ⟨by decide, ?_⟩
  have hdiff' : lowerStr (H cur) ≠ lowerStr expected := by
    rw [← hm]
    exact hdiff
  have hinstd : FS.write fs0 p.downloadPath bytes p.installPath = some cur := by
    rw [FS.write_ne fs0 p.downloadPath bytes p.installPath (Ne.symm w1)]
    exact hinst
  have h1 : run H p env fs0 =
      backupPhase p env (FS.write fs0 p.downloadPath bytes) 0 := by
    simp [run, hc, hf, hr, hd, hm, upToDatePhase, hinstd, hnh, hdiff,
      hdiff', confirmPhase, huc, ht]
  have h2 : backupPhase p env (FS.write fs0 p.downloadPath bytes) 0 =
      replacePhase p env (some p.bpath)
        (FS.write (FS.write fs0 p.downloadPath bytes) p.bpath cur) 0 := by
    simp [backupPhase, hinstd, hbk, backup_file, hinstd, Params.bpath]
  have hAfail : (atomic_replace p.downloadPath p.installPath env.replaceFail
      (FS.write (FS.write fs0 p.downloadPath bytes) p.bpath cur)).1 = false := by
    rw [hrf]
    exact atomic_replace_injected_fails _ _ _ _
  have hAbp : (atomic_replace p.downloadPath p.installPath env.replaceFail
      (FS.write (FS.write fs0 p.downloadPath bytes) p.bpath cur)).2 p.bpath
      = some cur := by
    rw [atomic_replace_snd_frame _ _ _ _ _ w4 w5]
    exact FS.write_self _ _ _
  have hAdl : (atomic_replace p.downloadPath p.installPath env.replaceFail
      (FS.write (FS.write fs0 p.downloadPath bytes) p.bpath cur)).2
      p.downloadPath = some bytes := by
    rw [atomic_replace_snd_frame _ _ _ _ _ w1 w2,
      FS.write_ne _ _ _ _ w3]
    exact FS.write_self _ _ _
  cases hrb : env.rollbackFails with
  | false =>
      have hwdl : FS.write (atomic_replace p.downloadPath p.installPath
          env.replaceFail
          (FS.write (FS.write fs0 p.downloadPath bytes) p.bpath cur)).2
          p.installPath cur p.downloadPath = some bytes := by
        rw [FS.write_ne _ _ _ _ w1]
        exact hAdl
      refine ⟨FS.remove (FS.write (atomic_replace p.downloadPath
        p.installPath env.replaceFail
        (FS.write (FS.write fs0 p.downloadPath bytes) p.bpath cur)).2
        p.installPath cur) p.downloadPath, ?_, ?_⟩
      · rw [h1, h2]
        simp [replacePhase, hAfail, hrb, hAbp, os_remove_ok _ _ _ hwdl]
      · intro _
        rw [FS.remove_ne _ _ _ (Ne.symm w1)]
        exact FS.write_self _ _ _
  | true =>
      refine ⟨FS.remove (atomic_replace p.downloadPath p.installPath
        env.replaceFail
        (FS.write (FS.write fs0 p.downloadPath bytes) p.bpath cur)).2
        p.downloadPath, ?_, ?_⟩
      · rw [h1, h2]
        simp [replacePhase, hAfail, hrb, os_remove_ok _ _ _ hAdl]
      · intro hcontra
        cases hcontra

theorem run_replace_failure_rolls_back_witness :
    (⟨"C:/app/lon.exe", "C:/bak", "C:/tmp/dl", "TS"⟩ : Params).wf ∧
    (lowerStr ((fun l => if l = [1] then "AA" else "bb") [1])
      = lowerStr "aa") ∧
    (Outcome.rolledBack ≠ Outcome.rollbackFailed ∧
     ∃ fs1, run (fun l => if l = [1] then "AA" else "bb")
        ⟨"C:/app/lon.exe", "C:/bak", "C:/tmp/dl", "TS"⟩
        ⟨true, true, some "aa", some [1], false, true, true, none,
          some .replaceFail, false⟩
        (fun q => if q = "C:/app/lon.exe" then some [0] else none)
      = .ok ((if (⟨true, true, some "aa", some [1], false, true, true, none,
          some .replaceFail, false⟩ : Env).rollbackFails
          then .rollbackFailed else .rolledBack), fs1, 1) ∧
      ((⟨true, true, some "aa", some [1], false, true, true, none,
          some .replaceFail, false⟩ : Env).rollbackFails = false →
        fs1 "C:/app/lon.exe" = some [0])) :=
  ⟨by decide, by decide,
   run_replace_failure_rolls_back (fun l => if l = [1] then "AA" else "bb")
     ⟨"C:/app/lon.exe", "C:/bak", "C:/tmp/dl", "TS"⟩
     ⟨true, true, some "aa", some [1], false, true, true, none,
       some .replaceFail, false⟩
     (fun q => if q = "C:/app/lon.exe" then some [0] else none)
     "aa" [1] [0] .replaceFail (by decide) rfl rfl rfl rfl (by decide)
     rfl rfl (by decide) rfl rfl rfl rfl⟩

/-! ### C3 -/

theorem replacePhase_discards (p : Params) (env : Env) (bo : Option String)
    (fs : FS) (n : Nat) (b : Bytes) (hwf : p.wf)
    (hcand : fs p.downloadPath = some b) :
    ∃ o fs1, replacePhase p env bo fs n = .ok (o, fs1, n + 1) ∧
      fs1 p.downloadPath = none := by
  obtain ⟨w1, w2, _, _, _⟩ := hwf
  have hAdl : (atomic_replace p.downloadPath p.installPath env.replaceFail
      fs).2 p.downloadPath = some b := by
    rw [atomic_replace_snd_frame _ _ _ _ _ w1 w2]
    exact hcand
  cases hA : (atomic_replace p.downloadPath p.installPath env.replaceFail
      fs).1 with
  | true =>
      exact ⟨.success, FS.remove (atomic_replace p.downloadPath
          p.installPath env.replaceFail fs).2 p.downloadPath,
        by simp [replacePhase, hA, os_remove_guarded],
        FS.remove_self _ _⟩
  | false =>
      cases bo with
      | none =>
          exact ⟨.replaceFailedNoBackup, FS.remove (atomic_replace
              p.downloadPath p.installPath env.replaceFail fs).2
              p.downloadPath,
            by simp [replacePhase, hA, os_remove_ok _ _ _ hAdl],
            FS.remove_self _ _⟩
      | some bp =>
          cases hrb : (if env.rollbackFails then none else
              (atomic_replace p.downloadPath p.installPath env.replaceFail
                fs).2 bp) with
          | none =>
              exact ⟨.rollbackFailed, FS.remove (atomic_replace
                  p.downloadPath p.installPath env.replaceFail fs).2
                  p.downloadPath,
                by simp [replacePhase, hA, hrb, os_remove_ok _ _ _ hAdl],
                FS.remove_self _ _⟩
          | some bb =>
              have hwdl : FS.write (atomic_replace p.downloadPath
                  p.installPath env.replaceFail fs).2 p.installPath bb
                  p.downloadPath = some b := by
                rw [FS.write_ne _ _ _ _ w1]
                exact hAdl
              exact ⟨.rolledBack, FS.remove (FS.write (atomic_replace
                  p.downloadPath p.installPath env.replaceFail fs).2
                  p.installPath bb) p.downloadPath,
                by simp [replacePhase, hA, hrb, os_remove_ok _ _ _ hwdl],
                FS.remove_self _ _⟩

theorem backupPhase_discards (p : Params) (env : Env) (fs : FS) (n : Nat)
    (b : Bytes) (hwf : p.wf) (hcand : fs p.downloadPath = some b) :
    ∃ o fs1, backupPhase p env fs n = .ok (o, fs1, n + 1) ∧
      fs1 p.downloadPath = none := by
  cases hi : fs p.installPath with
  | none =>
      obtain ⟨o, fs1, heq, hnone⟩ :=
        replacePhase_discards p env none fs n b hwf hcand
      exact ⟨o, fs1, by simp [backupPhase, hi, heq], hnone⟩
  | some c =>
      have hfr : (backup_file p.installPath p.backupDir p.ts env.backupFail
          fs).2 p.downloadPath = some b := by
        rw [backup_file_snd_frame _ _ _ _ _ _ hwf.2.2.1]
        exact hcand
      cases hb1 : (backup_file p.installPath p.backupDir p.ts env.backupFail
          fs).1 with
      | some bp =>
          obtain ⟨o, fs1, heq, hnone⟩ :=
            replacePhase_discards p env (some bp) _ n b hwf hfr
          exact ⟨o, fs1, by simp [backupPhase, hi, hb1, heq], hnone⟩
      | none =>
          exact ⟨.backupFailed, FS.remove (backup_file p.installPath
              p.backupDir p.ts env.backupFail fs).2 p.downloadPath,
            by simp [backupPhase, hi, hb1, os_remove_ok _ _ _ hfr],
            FS.remove_self _ _⟩

theorem confirmPhase_discards (p : Params) (env : Env) (fs : FS) (n : Nat)
    (b : Bytes) (hwf : p.wf) (hcand : fs p.downloadPath = some b) :
    ∃ o fs1, confirmPhase p env fs n = .ok (o, fs1, n + 1) ∧
      fs1 p.downloadPath = none := by
  cases huc : env.userConfirms with
  | false =>
      exact ⟨.userDeclined, FS.remove fs p.downloadPath,
        by simp [confirmPhase, huc, os_remove_ok _ _ _ hcand],
        FS.remove_self _ _⟩
  | true =>
      cases ht : env.terminateOk with
      | false =>
          exact ⟨.processNotStopped, FS.remove fs p.downloadPath,
            by simp [confirmPhase, huc, ht, os_remove_ok _ _ _ hcand],
            FS.remove_self _ _⟩
      | true =>
          obtain ⟨o, fs1, heq, hnone⟩ :=
            backupPhase_discards p env fs n b hwf hcand
          exact ⟨o, fs1, by simp [confirmPhase, huc, ht, heq], hnone⟩

theorem upToDatePhase_discards (H : Bytes → String) (p : Params) (env : Env)
    (d : String) (fs : FS) (n : Nat) (b : Bytes) (hwf : p.wf)
    (hcand : fs p.downloadPath = some b) :
    ∃ o fs1, upToDatePhase H p env d fs n = .ok (o, fs1, n + 1) ∧
      fs1 p.downloadPath = none := by
  cases hi : fs p.installPath with
  | none =>
      obtain ⟨o, fs1, heq, hnone⟩ :=
        confirmPhase_discards p env fs n b hwf hcand
      exact ⟨o, fs1, by simp [upToDatePhase, hi, heq], hnone⟩
  | some cur =>
      cases hih : env.installHashFails with
      | true =>
          obtain ⟨o, fs1, heq, hnone⟩ :=
            confirmPhase_discards p env fs n b hwf hcand
          exact ⟨o, fs1, by simp [upToDatePhase, hi, hih, heq], hnone⟩
      | false =>
          by_cases hm : lowerStr (H cur) = lowerStr d
          · exact ⟨.alreadyUpToDate, FS.remove fs p.downloadPath,
              by simp [upToDatePhase, hi, hih, hm, os_remove_ok _ _ _ hcand],
              FS.remove_self _ _⟩
          · obtain ⟨o, fs1, heq, hnone⟩ :=
              confirmPhase_discards p env fs n b hwf hcand
            exact ⟨o, fs1, by simp [upToDatePhase, hi, hih, hm, heq], hnone⟩

/-- C3 (amended): every run terminates normally (no removal ever
raises during an actual run), and whenever the candidate artifact was
downloaded, exactly one `os.remove(download_path)` attempt happens and
the candidate temporary file is gone at the end; runs that never
download the candidate attempt no removal.  (As the counterexample
records, the removal is the guarded delete-if-exists idiom only on the
checksum-mismatch and success exits; the up-to-date, user-declined,
process-not-stopped, backup-failed and replace-failed exits call the
bare `os.remove`, which would raise were the file already removed —
within a run the candidate still exists at those points, so the
cleanup still succeeds exactly once on every terminal path.) -/
theorem run_discards_candidate (H : Bytes → String) (p : Params)
    (env : Env) (fs0 : FS) (hwf : p.wf) :
    ∃ o fs1 n, run H p env fs0 = .ok (o, fs1, n) ∧
      (env.downloaded → fs1 p.downloadPath = none ∧ n = 1) ∧
      (¬ env.downloaded → n = 0) := by
  cases hc : env.configExists with
  | false =>
      refine ⟨.configMissing, fs0, 0, by simp [run, hc], ?_, fun _ => rfl⟩
      intro hdl
      simp [Env.downloaded, hc] at hdl
  | true =>
      cases hf : env.fieldsOk with
      | false =>
          refine ⟨.configIncomplete, fs0, 0, by simp [run, hc, hf], ?_,
            fun _ => rfl⟩
          intro hdl
          simp [Env.downloaded, hf] at hdl
      | true =>
          cases hr : env.refDigest with
          | none =>
              refine ⟨.referenceUnavailable, fs0, 0, by simp [run, hc, hf, hr],
                ?_, fun _ => rfl⟩
              intro hdl
              simp [Env.downloaded, hr] at hdl
          | some expected =>
              cases hd : env.downloadResult with
              | none =>
                  refine ⟨.downloadFailed, fs0, 0,
                    by simp [run, hc, hf, hr, hd], ?_, fun _ => rfl⟩
                  intro hdl
                  simp [Env.downloaded, hd] at hdl
              | some bytes =>
                  have hdl : env.downloaded :=
                    ⟨hc, hf, by rw [hr]; simp, by rw [hd]; simp⟩
                  by_cases hm : lowerStr (H bytes) = lowerStr expected
                  · obtain ⟨o, fs1, heq, hnone⟩ :=
                      upToDatePhase_discards H p env (H bytes)
                        (FS.write fs0 p.downloadPath bytes) 0 bytes hwf
                        (FS.write_self _ _ _)
                    exact ⟨o, fs1, 1, by simp [run, hc, hf, hr, hd, hm, heq],
                      fun _ => ⟨hnone, rfl⟩, fun h => absurd hdl h⟩
                  · exact ⟨.checksumMismatch,
                      FS.remove (FS.write fs0 p.downloadPath bytes)
                        p.downloadPath, 1,
                      by simp [run, hc, hf, hr, hd, hm, os_remove_guarded],
                      fun _ => ⟨FS.remove_self _ _, rfl⟩,
                      fun h => absurd hdl h⟩

theorem run_discards_candidate_witness :
    (⟨"C:/app/lon.exe", "C:/bak", "C:/tmp/dl", "TS"⟩ : Params).wf ∧
    ∃ o fs1 n, run (fun l => if l = [1] then "AA" else "bb")
        ⟨"C:/app/lon.exe", "C:/bak", "C:/tmp/dl", "TS"⟩
        ⟨true, true, some "aa", some [1], false, true, true, none, none,
          false⟩
        (fun q => if q = "C:/app/lon.exe" then some [0] else none)
      = .ok (o, fs1, n) ∧
      ((⟨true, true, some "aa", some [1], false, true, true, none, none,
          false⟩ : Env).downloaded → fs1 "C:/tmp/dl" = none ∧ n = 1) ∧
      (¬ (⟨true, true, some "aa", some [1], false, true, true, none, none,
          false⟩ : Env).downloaded → n = 0) :=
  ⟨by decide,
   run_discards_candidate (fun l => if l = [1] then "AA" else "bb")
     ⟨"C:/app/lon.exe", "C:/bak", "C:/tmp/dl", "TS"⟩
     ⟨true, true, some "aa", some [1], false, true, true, none, none, false⟩
     (fun q => if q = "C:/app/lon.exe" then some [0] else none)
     (by decide)⟩

/-- C3 counterexample: the cleanup on the user-declined terminal path
is the bare `os.remove` of line 300; on a state where the candidate
temporary file is already removed it raises `FileNotFoundError`
instead of being an idempotent delete-if-exists — the claim that the
deletion never raises when the file is already removed is false. -/
theorem declined_cleanup_raises :
    confirmPhase ⟨"C:/app/lon.exe", "C:/bak", "C:/tmp/dl", "TS"⟩
      ⟨true, true, some "aa", some [1], false, false, true, none, none,
        false⟩
      (fun _ => none) 0 = .error "FileNotFoundError" := rfl

end LonUpdater
